import Mathlib

/-!
Shallow embedding of the reactive state-mirror core of the jiji bar
application (Rust), covering:

* `src/pulseaudio/mod.rs` — the PulseAudio adapter: mirror state
  (`defaultSink`, `defaultSource`, `sinks`, `sources`), the subscribe
  event handler `on_event`, the enumeration/lookup completion handlers
  `on_sink_info` / `on_source_info` / `on_server_info`, the state-change
  handler `on_state_change`, and the by-name default-device resolvers
  `default_sink` / `default_source`.
* `src/pulseaudio/sink.rs` — `SinkState::new` and the volume display
  convention used by `SinkState::adjustment`.
* `src/i3/mod.rs` — the workspace adapter: `get_workspaces` (full-listing
  fetch, grouped by output and sorted by `num`), the receiver that
  replaces the store wholesale, and the blocking listener-thread loop.

Rust `HashMap<K, V>` values are embedded as association lists with
`findA`/`insertA`/`eraseA` (respectively `findG`/`appendG` for the
string-keyed workspace map); `u32` device indices are embedded as `Nat`
(no arithmetic is performed on them, so no wrap-around modelling is
needed).  GObject `notify_by_pspec` emissions are recorded as explicit
lists of `PSpec` values.  Asynchronous introspection requests are
recorded as explicit `Request` values and their completions are
delivered as messages to a small client state machine (`Client`,
`step`, `run`).  Rust panics (`expect`, `unreachable!`) are embedded as
explicit abort diagnostics.
-/

namespace Jiji

/-! ## Association maps (embedding of `HashMap<u32, V>`) -/

/-- Lookup in an association list keyed by device index
(`HashMap::get`). -/
def findA {α : Type} : List (Nat × α) → Nat → Option α
  | [], _ => none
  | p :: ps, k => if p.1 = k then some p.2 else findA ps k

/-- Insert-or-replace in an association list (`HashMap::insert`). -/
def insertA {α : Type} : List (Nat × α) → Nat → α → List (Nat × α)
  | [], k, v => [(k, v)]
  | p :: ps, k, v => if p.1 = k then (k, v) :: ps else p :: insertA ps k v

/-- Deletion from an association list (`HashMap::remove`). -/
def eraseA {α : Type} : List (Nat × α) → Nat → List (Nat × α)
  | [], _ => []
  | p :: ps, k => if p.1 = k then eraseA ps k else p :: eraseA ps k

/-! ## PulseAudio entity model (`src/pulseaudio/sink.rs`, `source.rs`) -/

/-- The fields of `pulse::context::introspect::SinkInfo` read by the
program: `index`, `name`, `description`, `mute`, `volume`.  A
`ChannelVolumes` value is a per-channel vector of `u32` amplitudes. -/
structure SinkInfo where
  index : Nat
  name : Option String
  description : Option String
  mute : Bool
  volume : List Nat
deriving DecidableEq, Repr

/-- `SinkState` from `src/pulseaudio/sink.rs` (the `pa_context` handle
carries no mirror data and is omitted). -/
structure SinkState where
  name : String
  description : String
  mute : Bool
  volume : List Nat
deriving DecidableEq, Repr

/-- `SinkState::new` from `src/pulseaudio/sink.rs`: optional wire fields
default to the empty string (`unwrap_or_default`). -/
def SinkState.new (si : SinkInfo) : SinkState :=
  { name := si.name.getD ""
    description := si.description.getD ""
    mute := si.mute
    volume := si.volume }

/-- The fields of `pulse::context::introspect::SourceInfo` read by the
program. -/
structure SourceInfo where
  index : Nat
  name : Option String
  description : Option String
  mute : Bool
  volume : List Nat
  monitor : Bool
deriving DecidableEq, Repr

/-- Modelled from the spec: `src/pulseaudio/source.rs` is declared by
`mod.rs` (`pub mod source;`) but absent from the sources.  Per the
spec's AudioDeviceEntity (`{id, name, description, mute, volume}`) and
the uses in `mod.rs` / `plugins/pulseaudio.rs` (`state.name`,
`source.description`, `source.mute`, `source.volume`,
`source.is_monitor`), a `SourceState` mirrors `SinkState` plus the
monitor flag. -/
structure SourceState where
  name : String
  description : String
  mute : Bool
  volume : List Nat
  is_monitor : Bool
deriving DecidableEq, Repr

/-- Modelled from the spec: `SourceState::new`, the source-side
counterpart of `SinkState::new` (the file `source.rs` is absent from
the sources). -/
def SourceState.new (si : SourceInfo) : SourceState :=
  { name := si.name.getD ""
    description := si.description.getD ""
    mute := si.mute
    volume := si.volume
    is_monitor := si.monitor }

/-- The fields of `pulse::context::introspect::ServerInfo` read by
`on_server_info`. -/
structure ServerInfo where
  default_sink_name : Option String
  default_source_name : Option String
deriving DecidableEq, Repr

/-! ## PulseAudio mirror state (`src/pulseaudio/mod.rs`) -/

/-- The mirror data owned by `imp::PulseAudioState`: `default_sink`,
`default_source`, `sinks`, `sources`.  The two connection handles carry
no mirror data and are modelled separately (`on_state_change` takes the
context presence and state as arguments). -/
structure PAState where
  defaultSink : String
  defaultSource : String
  sinks : List (Nat × SinkState)
  sources : List (Nat × SourceState)
deriving DecidableEq, Repr

/-- The `#[derive(Default)]` initial state: empty strings and empty
maps (also the `ParamSpec` defaults `Some("")`). -/
def PAState.initial : PAState :=
  { defaultSink := ""
    defaultSource := ""
    sinks := []
    sources := [] }

/-- `pulse::context::subscribe::Facility` (the three subscribed
classes). -/
inductive Facility
  | sink
  | source
  | server
deriving DecidableEq, Repr

/-- `pulse::context::subscribe::Operation`. -/
inductive Operation
  | added
  | changed
  | removed
deriving DecidableEq, Repr

/-- The four `ParamSpec`s the adapter notifies on
(`notify_by_pspec`). -/
inductive PSpec
  | sinks
  | sources
  | defaultSink
  | defaultSource
deriving DecidableEq, Repr

/-- Asynchronous introspection requests issued by the handlers. -/
inductive Request
  | getSinkInfoByIndex (index : Nat)
  | getSourceInfoByIndex (index : Nat)
  | getServerInfo
deriving DecidableEq, Repr

/-- `pulse::callbacks::ListResult`: a list-style reply delivers zero or
more `item`s followed by `listEnd`, or `err` on failure (PulseAudio
answers a by-index lookup of a nonexistent device with an error). -/
inductive ListResult (α : Type)
  | item (value : α)
  | listEnd
  | err
deriving DecidableEq, Repr

/-- The outcome of running one handler: the new mirror state, the
`notify_by_pspec` emissions, and the asynchronous requests issued. -/
structure Effect where
  state : PAState
  notifies : List PSpec
  requests : List Request
deriving DecidableEq, Repr

/-- `on_sink_info` (`mod.rs` lines 331–336): unconditionally insert the
entity built from the wire payload; no notification here. -/
def on_sink_info (s : PAState) (si : SinkInfo) : PAState :=
  { s with sinks := insertA s.sinks si.index (SinkState.new si) }

/-- `on_source_info` (`mod.rs` lines 338–343). -/
def on_source_info (s : PAState) (si : SourceInfo) : PAState :=
  { s with sources := insertA s.sources si.index (SourceState.new si) }

/-- `on_server_info` (`mod.rs` lines 313–329): replace both default
names unconditionally (absent wire names become `""` via
`unwrap_or_default`) and notify each property. -/
def on_server_info (s : PAState) (si : ServerInfo) : Effect :=
  { state :=
      { s with
        defaultSink := si.default_sink_name.getD ""
        defaultSource := si.default_source_name.getD "" }
    notifies := [PSpec.defaultSink, PSpec.defaultSource]
    requests := [] }

/-- `on_event` (`mod.rs` lines 238–311): `Removed` deletes from the map
and notifies immediately; `New`/`Changed` only issues a by-index
lookup; `Server`/`Changed` re-issues the server-info fetch; every other
combination is ignored. -/
def on_event (s : PAState) (facility : Option Facility)
    (operation : Option Operation) (index : Nat) : Effect :=
  match facility, operation with
  | some Facility.sink, some Operation.removed =>
      { state := { s with sinks := eraseA s.sinks index }
        notifies := [PSpec.sinks]
        requests := [] }
  | some Facility.sink, some Operation.changed =>
      { state := s, notifies := [], requests := [Request.getSinkInfoByIndex index] }
  | some Facility.sink, some Operation.added =>
      { state := s, notifies := [], requests := [Request.getSinkInfoByIndex index] }
  | some Facility.source, some Operation.removed =>
      { state := { s with sources := eraseA s.sources index }
        notifies := [PSpec.sources]
        requests := [] }
  | some Facility.source, some Operation.changed =>
      { state := s, notifies := [], requests := [Request.getSourceInfoByIndex index] }
  | some Facility.source, some Operation.added =>
      { state := s, notifies := [], requests := [Request.getSourceInfoByIndex index] }
  | some Facility.server, some Operation.changed =>
      { state := s, notifies := [], requests := [Request.getServerInfo] }
  | _, _ => { state := s, notifies := [], requests := [] }

/-- One callback invocation of the closure passed to
`get_sink_info_by_index` (`mod.rs` lines 258–266): `Item` runs
`on_sink_info`, `End` notifies the `sinks` property, errors are
ignored. -/
def onSinkLookupResult (s : PAState) (res : ListResult SinkInfo) : Effect :=
  match res with
  | ListResult.item si => { state := on_sink_info s si, notifies := [], requests := [] }
  | ListResult.listEnd => { state := s, notifies := [PSpec.sinks], requests := [] }
  | ListResult.err => { state := s, notifies := [], requests := [] }

/-- One callback invocation of the closure passed to
`get_source_info_by_index` (`mod.rs` lines 283–291). -/
def onSourceLookupResult (s : PAState) (res : ListResult SourceInfo) : Effect :=
  match res with
  | ListResult.item si => { state := on_source_info s si, notifies := [], requests := [] }
  | ListResult.listEnd => { state := s, notifies := [PSpec.sources], requests := [] }
  | ListResult.err => { state := s, notifies := [], requests := [] }

/-- Folding a whole list-style reply through the sink lookup callback:
the resulting mirror state. -/
def applySinkResults (s : PAState) : List (ListResult SinkInfo) → PAState
  | [] => s
  | r :: rs => applySinkResults (onSinkLookupResult s r).state rs

/-- Folding a whole list-style reply through the sink lookup callback:
the notifications emitted. -/
def sinkResultsNotifies (s : PAState) : List (ListResult SinkInfo) → List PSpec
  | [] => []
  | r :: rs =>
      (onSinkLookupResult s r).notifies ++
        sinkResultsNotifies (onSinkLookupResult s r).state rs

/-- Folding a whole list-style reply through the source lookup
callback: the resulting mirror state. -/
def applySourceResults (s : PAState) : List (ListResult SourceInfo) → PAState
  | [] => s
  | r :: rs => applySourceResults (onSourceLookupResult s r).state rs

/-- Folding a whole list-style reply through the source lookup
callback: the notifications emitted. -/
def sourceResultsNotifies (s : PAState) : List (ListResult SourceInfo) → List PSpec
  | [] => []
  | r :: rs =>
      (onSourceLookupResult s r).notifies ++
        sourceResultsNotifies (onSourceLookupResult s r).state rs

/-! ## Default-device resolution (`mod.rs` lines 59–78) -/

/-- The `for (_, ref state) in self.sinks()` loop of `default_sink` /
`default_source`: return the first entry whose `name` equals the looked
up name. -/
def findByName {α : Type} (getName : α → String) :
    List (Nat × α) → String → Option α
  | [], _ => none
  | p :: ps, n => if getName p.2 = n then some p.2 else findByName getName ps n

/-- `default_sink` (`mod.rs` lines 59–67): resolve the stored
`defaultSink` name against the sink collection by name equality. -/
def default_sink (s : PAState) : Option SinkState :=
  findByName SinkState.name s.sinks s.defaultSink

/-- `default_source` (`mod.rs` lines 70–78). -/
def default_source (s : PAState) : Option SourceState :=
  findByName SourceState.name s.sources s.defaultSource

/-! ## The audio client as a state machine (for the lookup race)

The adapter runs on one cooperative context; what varies is the order
in which subscribe events and introspection replies are delivered to
it.  `Client` tracks the mirror state plus the indices with an
in-flight by-index lookup; `step` delivers one message, running exactly
the handlers embedded above.  A reply is only accepted for an index
whose lookup is actually in flight. -/

/-- A message delivered to the audio client: a subscribe event, a
by-index lookup reply (the whole list-style result sequence), or a
server-info reply. -/
inductive Msg
  | event (facility : Option Facility) (operation : Option Operation) (index : Nat)
  | sinkReply (index : Nat) (results : List (ListResult SinkInfo))
  | sourceReply (index : Nat) (results : List (ListResult SourceInfo))
  | serverReply (si : ServerInfo)
deriving DecidableEq, Repr

/-- The client: mirror state plus in-flight by-index lookups. -/
structure Client where
  st : PAState
  pendingSink : List Nat
  pendingSource : List Nat
deriving DecidableEq, Repr

/-- The sink indices looked up by a batch of requests. -/
def requestsSinkIdx (reqs : List Request) : List Nat :=
  reqs.filterMap fun r =>
    match r with
    | Request.getSinkInfoByIndex i => some i
    | _ => none

/-- The source indices looked up by a batch of requests. -/
def requestsSourceIdx (reqs : List Request) : List Nat :=
  reqs.filterMap fun r =>
    match r with
    | Request.getSourceInfoByIndex i => some i
    | _ => none

/-- Deliver one message to the client, returning the new client and
the notifications emitted. -/
def step (c : Client) (m : Msg) : Client × List PSpec :=
  match m with
  | Msg.event f op idx =>
      let e := on_event c.st f op idx
      (⟨e.state,
        c.pendingSink ++ requestsSinkIdx e.requests,
        c.pendingSource ++ requestsSourceIdx e.requests⟩, e.notifies)
  | Msg.sinkReply idx results =>
      if idx ∈ c.pendingSink then
        (⟨applySinkResults c.st results, c.pendingSink.erase idx, c.pendingSource⟩,
          sinkResultsNotifies c.st results)
      else (c, [])
  | Msg.sourceReply idx results =>
      if idx ∈ c.pendingSource then
        (⟨applySourceResults c.st results, c.pendingSink, c.pendingSource.erase idx⟩,
          sourceResultsNotifies c.st results)
      else (c, [])
  | Msg.serverReply si =>
      let e := on_server_info c.st si
      (⟨e.state, c.pendingSink, c.pendingSource⟩, e.notifies)

/-- Deliver a sequence of messages, collecting all notifications. -/
def run (c : Client) : List Msg → Client × List PSpec
  | [] => (c, [])
  | m :: ms =>
      let p := step c m
      let q := run p.1 ms
      (q.1, p.2 ++ q.2)

/-! ## The ready-transition handler (`mod.rs` lines 195–237) -/

/-- `pulse::context::State`. -/
inductive PAContextState
  | unconnected
  | connecting
  | authorizing
  | settingName
  | ready
  | failed
  | terminated
deriving DecidableEq, Repr

/-- The work `on_state_change` performs when it does not return early:
the subscription plus the three one-time enumerations, in program
order. -/
inductive StartupAction
  | subscribeClasses
  | getServerInfo
  | getSinkInfoList
  | getSourceInfoList
deriving DecidableEq, Repr

/-- `on_state_change` (`mod.rs` lines 195–237): return early if the
context is not yet stored (the inline callback during `connect`) or if
its state is not `Ready`; otherwise subscribe to the three classes and
issue the three enumerations.  The handler keeps no flag recording that
this already happened. -/
def on_state_change (contextPresent : Bool) (st : PAContextState) :
    List StartupAction :=
  if contextPresent = false then []
  else if st = PAContextState.ready then
    [StartupAction.subscribeClasses, StartupAction.getServerInfo,
      StartupAction.getSinkInfoList, StartupAction.getSourceInfoList]
  else []

/-- The actions issued across a sequence of state-change callback
invocations, each seeing the context presence flag and context state at
that moment. -/
def runStateCallbacks (calls : List (Bool × PAContextState)) : List StartupAction :=
  (calls.map fun c => on_state_change c.1 c.2).flatten

/-! ## Volume display convention and setVolume (`sink.rs`, `util.rs`) -/

/-- `pulse::volume::Volume::NORMAL` (`PA_VOLUME_NORM = 0x10000`). -/
def volumeNormal : Nat := 65536

/-- `ChannelVolumes::max`: the largest per-channel amplitude (0 for an
empty vector, `PA_VOLUME_MUTED`). -/
def maxAmp (cv : List Nat) : Nat := cv.foldr max 0

/-- The display convention of `SinkState::adjustment` (`sink.rs` line
61, "From pa_volume_snprint_verbose"): `v * 100.0 / NORMAL + 0.5`,
truncated to an integer percentage.  All the `f64` operations involved
are exact for amplitudes below 2^32, so the rational computation below
is the exact value of the floating-point one. -/
def displayPercentage (v : Nat) : Int :=
  ⌊(v : ℚ) * 100 / (volumeNormal : ℚ) + 1 / 2⌋

/-- Percentage to native units with the display convention (add 0.5,
truncate). -/
def pctToNative (p : ℚ) : Nat :=
  (⌊p * (volumeNormal : ℚ) / 100 + 1 / 2⌋).toNat

/-- Modelled from the spec: `util::percentage_to_volume` lives in
`src/pulseaudio/util.rs`, which is declared by `mod.rs` (`pub mod
util;`) but absent from the sources.  Per spec §4.5 it maps an overall
percentage to the per-channel vector by scaling every channel
proportionally to its current share of the maximum (preserving
balance), converting percentage to native units by adding 0.5 before
truncating; an all-zero vector (no maximum to take a share of) is set
uniformly to the target amplitude, as `pa_cvolume_scale` does. -/
def percentage_to_volume (p : ℚ) (cv : List Nat) : List Nat :=
  if maxAmp cv = 0 then cv.map fun _ => pctToNative p
  else
    cv.map fun (v : Nat) =>
      (⌊p * (volumeNormal : ℚ) / 100 * ((v : ℚ) / (maxAmp cv : ℚ)) + 1 / 2⌋).toNat

/-! ## Workspace model (`src/i3/mod.rs`) -/

/-- The fields of an `i3ipc` workspace record read by
`get_workspaces`. -/
structure I3WS where
  num : Int
  name : String
  output : String
  visible : Bool
  focused : Bool
  urgent : Bool
deriving DecidableEq, Repr

/-- `WorkspaceState` (`i3/mod.rs` lines 20–27). -/
structure WorkspaceState where
  num : Int
  name : String
  visible : Bool
  focused : Bool
  urgent : Bool
deriving DecidableEq, Repr

/-- The per-record construction inside the `get_workspaces` loop. -/
def toWS (w : I3WS) : WorkspaceState :=
  { num := w.num
    name := w.name
    visible := w.visible
    focused := w.focused
    urgent := w.urgent }

/-- The `Workspaces` store: `HashMap<String, Vec<WorkspaceState>>`,
embedded as an association list keyed by output name. -/
abbrev Workspaces := List (String × List WorkspaceState)

/-- Lookup by output name (`HashMap::get`). -/
def findG : Workspaces → String → Option (List WorkspaceState)
  | [], _ => none
  | p :: ps, o => if p.1 = o then some p.2 else findG ps o

/-- One iteration of the `get_workspaces` grouping loop: ensure the
output key exists (`contains_key`/`insert(output, vec![])`) and push
the workspace onto its group. -/
def appendG : Workspaces → String → WorkspaceState → Workspaces
  | [], o, w => [(o, [w])]
  | p :: ps, o, w =>
      if p.1 = o then (p.1, p.2 ++ [w]) :: ps else p :: appendG ps o w

/-- The grouping pass of `get_workspaces` over the fetched listing, in
listing order. -/
def buildGroups (l : List I3WS) : Workspaces :=
  l.foldl (fun m x => appendG m x.output (toWS x)) []

/-- The comparison of `sort_by_key(|ws| ws.num)`. -/
def wsLe (a b : WorkspaceState) : Prop := a.num ≤ b.num

instance : DecidableRel wsLe := fun a b => inferInstanceAs (Decidable (a.num ≤ b.num))

instance : IsTotal WorkspaceState wsLe := ⟨fun a b => le_total a.num b.num⟩

instance : IsTrans WorkspaceState wsLe := ⟨fun _ _ _ h h' => le_trans h h'⟩

/-- The per-group sort of `get_workspaces`: Rust's `sort_by_key` is a
stable sort, embedded as insertion sort. -/
def sortG (g : List WorkspaceState) : List WorkspaceState :=
  List.insertionSort wsLe g

/-- `get_workspaces` (`i3/mod.rs` lines 130–153): group the fetched
listing by output, then sort every group by `num`. -/
def get_workspaces (l : List I3WS) : Workspaces :=
  (buildGroups l).map fun p => (p.1, sortG p.2)

/-- The workspaces of one output in the fetched listing, in listing
order (the reference grouping the code must agree with). -/
def wsOfOutput (l : List I3WS) (o : String) : List WorkspaceState :=
  (l.filter fun w => w.output = o).map toWS

/-- Combining an existing group with further entries for the same output:
used to characterise the grouping pass (`none` with no entries stays
absent; otherwise the entries are appended). -/
def combineG : Option (List WorkspaceState) → List WorkspaceState →
    Option (List WorkspaceState)
  | some g, es => some (g ++ es)
  | none, [] => none
  | none, es => some es

/-- The receiver closure attached to the channel (`i3/mod.rs` lines
104–111): `workspaces.replace(ws)` — replace the store wholesale
(ignoring its previous contents), notify the `workspaces` property
once, and return `Continue(true)`.  Result: new store, the `Continue`
value, the number of notifications emitted. -/
def i3_receiver (_store delivered : Workspaces) : Workspaces × Bool × Nat :=
  (delivered, true, 1)

/-- Running the receiver over a sequence of deliveries from the
listener thread: final store and total notification count. -/
def runI3Receiver (store : Workspaces) : List Workspaces → Workspaces × Nat
  | [] => (store, 0)
  | d :: ds =>
      let r := i3_receiver store d
      let q := runI3Receiver r.1 ds
      (q.1, r.2.2 + q.2)

/-- One `notify` emission dispatched synchronously to every registered
observer. -/
def dispatch {β : Type} (observers : List (PSpec → β)) (p : PSpec) : List β :=
  observers.map fun f => f p

/-- All emissions of a batch of notifications: one dispatch round per
emission, regardless of how many observers are registered. -/
def dispatchAll {β : Type} (observers : List (PSpec → β)) (notifies : List PSpec) :
    List (List β) :=
  notifies.map (dispatch observers)

/-! ## The listener thread (`i3/mod.rs` lines 112–126) -/

/-- An i3 event as classified by the listener loop's `match`: the
subscription covers only the workspace class. -/
inductive I3Event
  | workspaceEvent
  | otherEvent
deriving DecidableEq, Repr

/-- One item yielded by `listener.listen()`: a parsed event or a
read/parse failure. -/
inductive ListenItem
  | ok (ev : I3Event)
  | readErr (msg : String)
deriving DecidableEq, Repr

/-- An observable action of the listener thread: one full-listing
re-fetch-and-send, or a fatal abort with the panic diagnostic
(`expect` / `unreachable!`). -/
inductive LoopAction
  | refetch
  | abort (msg : String)
deriving DecidableEq, Repr

/-- The listener loop (`i3/mod.rs` lines 118–125): each notification
read from the subscription connection triggers one synchronous
full-listing re-fetch; a read/parse failure panics
(`expect("Failed to parse an i3 event")`) and nothing after it is
processed; a non-workspace event is `unreachable!()`. -/
def listenLoop : List ListenItem → List LoopAction
  | [] => []
  | ListenItem.ok I3Event.workspaceEvent :: rest => LoopAction.refetch :: listenLoop rest
  | ListenItem.ok I3Event.otherEvent :: _ =>
      [LoopAction.abort "internal error: entered unreachable code"]
  | ListenItem.readErr _ :: _ => [LoopAction.abort "Failed to parse an i3 event"]

/-- The whole listener thread (`i3/mod.rs` lines 112–126): connect the
fetch connection, send the initial listing, connect and subscribe the
listening connection, then run the loop; each `expect` is a fatal abort
and no retry or reconnect exists anywhere on the path. -/
def listenerThread (fetchConnOk listenConnOk subscribeOk : Bool)
    (items : List ListenItem) : List LoopAction :=
  if fetchConnOk = false then [LoopAction.abort "Failed to connect i3"]
  else
    LoopAction.refetch ::
      (if listenConnOk = false then [LoopAction.abort "Failed to connect i3"]
       else if subscribeOk = false then [LoopAction.abort "Failed to subscribe to i3"]
       else listenLoop items)

/-- `imp::PulseAudioState::constructed` (`pulseaudio/mod.rs` lines
171–191): mainloop creation, context creation and `connect` each abort
with their `expect` diagnostic on failure; there is no retry path. -/
def pa_constructed (mainloopOk contextOk connectOk : Bool) : Except String Unit :=
  if mainloopOk = false then Except.error "Failed to create a PulseAudio main loop"
  else if contextOk = false then Except.error "Failed to create PulseAudio context"
  else if connectOk = false then
    Except.error "Failed to connect to the PulseAudio server"
  else Except.ok ()

/-! ## Association map lemmas -/

theorem findA_insertA_self {α : Type} (m : List (Nat × α)) (k : Nat) (v : α) :
    findA (insertA m k v) k = some v := by
  induction m with
  | nil => simp [insertA, findA]
  | cons p ps ih =>
    by_cases h : p.1 = k
    · simp [insertA, h, findA]
    · simp [insertA, h, findA, ih]

theorem findA_insertA_ne {α : Type} (m : List (Nat × α)) (k j : Nat) (v : α)
    (h : j ≠ k) : findA (insertA m k v) j = findA m j := by
  induction m with
  | nil => simp [insertA, findA, Ne.symm h]
  | cons p ps ih =>
    by_cases hp : p.1 = k
    · subst hp
      simp [insertA, findA, Ne.symm h]
    · simp only [insertA, if_neg hp, findA]
      by_cases hj : p.1 = j
      · simp [hj]
      · simp [hj, ih]

theorem findA_eraseA_self {α : Type} (m : List (Nat × α)) (k : Nat) :
    findA (eraseA m k) k = none := by
  induction m with
  | nil => rfl
  | cons p ps ih =>
    by_cases h : p.1 = k
    · simp [eraseA, h, ih]
    · simp [eraseA, h, findA, ih]

theorem findA_eraseA_ne {α : Type} (m : List (Nat × α)) (k j : Nat)
    (h : j ≠ k) : findA (eraseA m k) j = findA m j := by
  induction m with
  | nil => rfl
  | cons p ps ih =>
    by_cases hp : p.1 = k
    · subst hp
      simp [eraseA, findA, Ne.symm h, ih]
    · simp only [eraseA, if_neg hp, findA]
      by_cases hj : p.1 = j
      · simp [hj]
      · simp [hj, ih]

/-! ## Lemmas about by-name resolution -/

theorem findByName_none_iff {α : Type} (g : α → String) (m : List (Nat × α))
    (n : String) :
    findByName g m n = none ↔ ∀ d ∈ m.map Prod.snd, g d ≠ n := by
  induction m with
  | nil => simp [findByName]
  | cons p ps ih =>
    by_cases h : g p.2 = n
    · simp only [findByName, if_pos h]
      constructor
      · intro hc; exact absurd hc (by simp)
      · intro hall; exact absurd h (hall p.2 (by simp))
    · simp only [findByName, if_neg h, List.map_cons, List.mem_cons]
      rw [ih]
      constructor
      · intro hall d hd
        rcases hd with rfl | hd
        · exact h
        · exact hall d hd
      · intro hall d hd
        exact hall d (Or.inr hd)

theorem findByName_eq_some_imp {α : Type} (g : α → String) (m : List (Nat × α))
    (n : String) (d : α) :
    findByName g m n = some d → g d = n ∧ d ∈ m.map Prod.snd := by
  induction m with
  | nil => intro h; simp [findByName] at h
  | cons p ps ih =>
    by_cases h : g p.2 = n
    · simp only [findByName, if_pos h]
      intro he
      injection he with he
      subst he
      exact ⟨h, by simp⟩
    · simp only [findByName, if_neg h]
      intro he
      obtain ⟨h1, h2⟩ := ih he
      exact ⟨h1, by simp [h2]⟩

theorem findByName_eq_of_map_snd_eq {α : Type} (g : α → String) :
    ∀ (m m' : List (Nat × α)), m.map Prod.snd = m'.map Prod.snd →
      ∀ n, findByName g m n = findByName g m' n
  | [], [], _, _ => rfl
  | [], _ :: _, h, _ => by simp at h
  | _ :: _, [], h, _ => by simp at h
  | p :: ps, p' :: ps', h, n => by
    simp only [List.map_cons, List.cons.injEq] at h
    obtain ⟨h1, h2⟩ := h
    simp only [findByName, h1]
    by_cases hn : g p'.2 = n
    · simp [hn]
    · simp [hn, findByName_eq_of_map_snd_eq g ps ps' h2 n]

/-! ## Lookup-reply lemmas -/

theorem findA_applySinkResults_of_no_item (s : PAState) (i : Nat)
    (results : List (ListResult SinkInfo))
    (h : ∀ si, ListResult.item si ∈ results → si.index ≠ i) :
    findA (applySinkResults s results).sinks i = findA s.sinks i := by
  induction results generalizing s with
  | nil => rfl
  | cons r rs ih =>
    have htail : ∀ si, ListResult.item si ∈ rs → si.index ≠ i :=
      fun si hm => h si (List.mem_cons_of_mem _ hm)
    cases r with
    | item si =>
      rw [applySinkResults, ih _ htail]
      simp only [onSinkLookupResult, on_sink_info]
      exact findA_insertA_ne _ _ _ _ (Ne.symm (h si (by simp)))
    | listEnd =>
      rw [applySinkResults]
      exact ih _ htail
    | err =>
      rw [applySinkResults]
      exact ih _ htail

theorem findA_applySourceResults_of_no_item (s : PAState) (i : Nat)
    (results : List (ListResult SourceInfo))
    (h : ∀ si, ListResult.item si ∈ results → si.index ≠ i) :
    findA (applySourceResults s results).sources i = findA s.sources i := by
  induction results generalizing s with
  | nil => rfl
  | cons r rs ih =>
    have htail : ∀ si, ListResult.item si ∈ rs → si.index ≠ i :=
      fun si hm => h si (List.mem_cons_of_mem _ hm)
    cases r with
    | item si =>
      rw [applySourceResults, ih _ htail]
      simp only [onSourceLookupResult, on_source_info]
      exact findA_insertA_ne _ _ _ _ (Ne.symm (h si (by simp)))
    | listEnd =>
      rw [applySourceResults]
      exact ih _ htail
    | err =>
      rw [applySourceResults]
      exact ih _ htail

theorem findA_insertA_of_self_value {α : Type} (m : List (Nat × α)) (k : Nat)
    (v : α) (h : findA m k = some v) (j : Nat) :
    findA (insertA m k v) j = findA m j := by
  by_cases hj : j = k
  · subst hj
    rw [findA_insertA_self, h]
  · exact findA_insertA_ne _ _ _ _ hj

theorem runI3Receiver_notify_count (store : Workspaces) (ds : List Workspaces) :
    (runI3Receiver store ds).2 = ds.length := by
  induction ds generalizing store with
  | nil => rfl
  | cons d rest ih => simp [runI3Receiver, i3_receiver, ih, Nat.add_comm]

/-! ## Workspace grouping lemmas -/

theorem combineG_nil (g : Option (List WorkspaceState)) : combineG g [] = g := by
  cases g <;> simp [combineG]

theorem combineG_cons_left (g : Option (List WorkspaceState)) (w : WorkspaceState)
    (es : List WorkspaceState) :
    combineG (combineG g [w]) es = combineG g (w :: es) := by
  cases g <;> cases es <;> simp [combineG]

theorem findG_appendG_self (m : Workspaces) (o : String) (w : WorkspaceState) :
    findG (appendG m o w) o = combineG (findG m o) [w] := by
  induction m with
  | nil => simp [appendG, findG, combineG]
  | cons p ps ih =>
    by_cases h : p.1 = o
    · simp [appendG, h, findG, combineG]
    · simp [appendG, h, findG, ih]

theorem findG_appendG_ne (m : Workspaces) (o o' : String) (w : WorkspaceState)
    (h : o ≠ o') : findG (appendG m o' w) o = findG m o := by
  induction m with
  | nil => simp [appendG, findG, Ne.symm h]
  | cons p ps ih =>
    by_cases hp : p.1 = o'
    · subst hp
      simp [appendG, findG, Ne.symm h]
    · simp only [appendG, if_neg hp, findG]
      by_cases ho : p.1 = o
      · simp [ho]
      · simp [ho, ih]

theorem wsOfOutput_cons (x : I3WS) (xs : List I3WS) (o : String) :
    wsOfOutput (x :: xs) o =
      if x.output = o then toWS x :: wsOfOutput xs o else wsOfOutput xs o := by
  by_cases h : x.output = o
  · simp [wsOfOutput, List.filter_cons, h]
  · simp [wsOfOutput, List.filter_cons, h]

theorem findG_foldl_appendG (l : List I3WS) (o : String) :
    ∀ m : Workspaces,
      findG (l.foldl (fun m x => appendG m x.output (toWS x)) m) o =
        combineG (findG m o) (wsOfOutput l o) := by
  induction l with
  | nil =>
    intro m
    simp only [List.foldl_nil]
    rw [show wsOfOutput [] o = [] from rfl, combineG_nil]
  | cons x xs ih =>
    intro m
    rw [List.foldl_cons, ih, wsOfOutput_cons]
    by_cases h : x.output = o
    · rw [if_pos h, ← combineG_cons_left]
      congr 1
      rw [← h]
      exact findG_appendG_self m x.output (toWS x)
    · rw [if_neg h]
      congr 1
      exact findG_appendG_ne m o x.output (toWS x) (Ne.symm h)

theorem findG_buildGroups (l : List I3WS) (o : String) :
    findG (buildGroups l) o = combineG none (wsOfOutput l o) :=
  findG_foldl_appendG l o []

theorem findG_map_sortG (m : Workspaces) (o : String) :
    findG (m.map fun p => (p.1, sortG p.2)) o = (findG m o).map sortG := by
  induction m with
  | nil => rfl
  | cons p ps ih =>
    by_cases h : p.1 = o
    · simp [findG, h]
    · simp [findG, h, ih]

theorem get_workspaces_groups_nonempty (l : List I3WS) (o : String)
    (g : List WorkspaceState) : findG (get_workspaces l) o = some g → g ≠ [] := by
  intro hg
  rw [get_workspaces, findG_map_sortG, findG_buildGroups] at hg
  cases hes : wsOfOutput l o with
  | nil =>
    rw [hes] at hg
    exact absurd hg (by simp [combineG])
  | cons e es =>
    rw [hes] at hg
    have heq : some (sortG (e :: es)) = some g := hg
    injection heq with heq
    subst heq
    intro hnil
    have := (List.perm_insertionSort wsLe (e :: es)).length_eq
    rw [show sortG (e :: es) = List.insertionSort wsLe (e :: es) from rfl] at hnil
    rw [hnil] at this
    simp at this

theorem runI3Receiver_preserves_nonempty (store : Workspaces)
    (hstore : ∀ o g, findG store o = some g → g ≠ [])
    (listings : List (List I3WS)) :
    ∀ o g, findG (runI3Receiver store (listings.map get_workspaces)).1 o = some g →
      g ≠ [] := by
  induction listings generalizing store with
  | nil => exact hstore
  | cons l ls ih =>
    intro o g hg
    exact ih (get_workspaces l)
      (fun o' g' h => get_workspaces_groups_nonempty l o' g' h) o g hg

/-! ## Volume arithmetic lemmas -/

theorem maxAmp_mem (cv : List Nat) (h : cv ≠ []) : maxAmp cv ∈ cv := by
  induction cv with
  | nil => exact absurd rfl h
  | cons a rest ih =>
    cases rest with
    | nil => simp [maxAmp]
    | cons b bs =>
      rcases Nat.le_total a (maxAmp (b :: bs)) with hle | hle
      · have : maxAmp (a :: b :: bs) = maxAmp (b :: bs) := by
          simp only [maxAmp, List.foldr_cons]
          exact Nat.max_eq_right hle
        rw [this]
        exact List.mem_cons_of_mem a (ih (by simp))
      · have : maxAmp (a :: b :: bs) = a := by
          simp only [maxAmp, List.foldr_cons]
          exact Nat.max_eq_left hle
        rw [this]
        exact List.mem_cons_self a _

theorem le_maxAmp (cv : List Nat) (v : Nat) (h : v ∈ cv) : v ≤ maxAmp cv := by
  induction cv with
  | nil => cases h
  | cons a rest ih =>
    rcases List.mem_cons.mp h with rfl | hmem
    · exact Nat.le_max_left _ _
    · exact le_trans (ih hmem) (Nat.le_max_right _ _)

theorem maxAmp_le (cv : List Nat) (x : Nat) (hb : ∀ v ∈ cv, v ≤ x) :
    maxAmp cv ≤ x := by
  induction cv with
  | nil => exact Nat.zero_le x
  | cons a rest ih =>
    exact Nat.max_le.mpr ⟨hb a (by simp), ih fun v hv => hb v (by simp [hv])⟩

theorem maxAmp_eq_of (cv : List Nat) (x : Nat) (hx : x ∈ cv)
    (hb : ∀ v ∈ cv, v ≤ x) : maxAmp cv = x :=
  le_antisymm (maxAmp_le cv x hb) (le_maxAmp cv x hx)

theorem maxAmp_map_mono (f : Nat → Nat) (hf : ∀ a b, a ≤ b → f a ≤ f b)
    (cv : List Nat) (h : cv ≠ []) : maxAmp (cv.map f) = f (maxAmp cv) := by
  apply maxAmp_eq_of
  · exact List.mem_map_of_mem f (maxAmp_mem cv h)
  · intro v hv
    obtain ⟨a, ha, rfl⟩ := List.mem_map.mp hv
    exact hf _ _ (le_maxAmp cv a ha)

theorem maxAmp_map_const (cv : List Nat) (h : cv ≠ []) (k : Nat) :
    maxAmp (cv.map fun _ => k) = k := by
  apply maxAmp_eq_of
  · exact List.mem_map_of_mem _ (maxAmp_mem cv h)
  · intro v hv
    obtain ⟨a, _, rfl⟩ := List.mem_map.mp hv
    exact le_refl k

theorem chanScale_mono (p mx : ℕ) (hmx : mx ≠ 0) (a b : ℕ) (hab : a ≤ b) :
    (⌊(p : ℚ) * (volumeNormal : ℚ) / 100 * ((a : ℚ) / (mx : ℚ)) + 1 / 2⌋).toNat ≤
      (⌊(p : ℚ) * (volumeNormal : ℚ) / 100 * ((b : ℚ) / (mx : ℚ)) + 1 / 2⌋).toNat := by
  apply Int.toNat_le_toNat
  apply Int.floor_le_floor
  have hc : (0 : ℚ) ≤ (p : ℚ) * (volumeNormal : ℚ) / 100 := by positivity
  have hmq : (0 : ℚ) < (mx : ℚ) := by exact_mod_cast Nat.pos_of_ne_zero hmx
  have hdiv : (a : ℚ) / (mx : ℚ) ≤ (b : ℚ) / (mx : ℚ) := by
    have hab' : (a : ℚ) ≤ (b : ℚ) := by exact_mod_cast hab
    gcongr
  linarith [mul_le_mul_of_nonneg_left hdiv hc]

theorem chanScale_at_max (p mx : ℕ) (hmx : mx ≠ 0) :
    (⌊(p : ℚ) * (volumeNormal : ℚ) / 100 * ((mx : ℚ) / (mx : ℚ)) + 1 / 2⌋).toNat =
      pctToNative (p : ℚ) := by
  rw [div_self (Nat.cast_ne_zero.mpr hmx), mul_one, pctToNative]

theorem display_pctToNative (p : ℕ) :
    displayPercentage (pctToNative (p : ℚ)) = (p : ℤ) := by
  have hx : (0 : ℚ) ≤ (p : ℚ) * (volumeNormal : ℚ) / 100 + 1 / 2 := by positivity
  have ht0 : 0 ≤ ⌊(p : ℚ) * (volumeNormal : ℚ) / 100 + 1 / 2⌋ :=
    Int.floor_nonneg.mpr hx
  have h1 : ((⌊(p : ℚ) * (volumeNormal : ℚ) / 100 + 1 / 2⌋ : ℤ) : ℚ) ≤
      (p : ℚ) * (volumeNormal : ℚ) / 100 + 1 / 2 := Int.floor_le _
  have h2 : (p : ℚ) * (volumeNormal : ℚ) / 100 + 1 / 2 - 1 <
      ((⌊(p : ℚ) * (volumeNormal : ℚ) / 100 + 1 / 2⌋ : ℤ) : ℚ) :=
    Int.sub_one_lt_floor _
  rw [displayPercentage, pctToNative]
  have hcast : ((⌊(p : ℚ) * (volumeNormal : ℚ) / 100 + 1 / 2⌋.toNat : ℕ) : ℚ) =
      ((⌊(p : ℚ) * (volumeNormal : ℚ) / 100 + 1 / 2⌋ : ℤ) : ℚ) := by
    exact_mod_cast Int.toNat_of_nonneg ht0
  rw [hcast, Int.floor_eq_iff]
  rw [volumeNormal] at h1 h2 ⊢
  push_cast at h1 h2 ⊢
  constructor
  · linarith
  · linarith

/-! ## Claim theorems -/

/-- C1 counterexample: the code records no tombstone.  Starting from a mirror
holding sink 1, the trace "Changed(sink,1) issues a by-index lookup;
Removed(sink,1) is applied; the lookup then completes late, delivering an
entity payload for index 1" ends with sink 1 back in the snapshot: the late
completion is not discarded and the removed device is resurrected, so the
final sinks collection does contain the index, contrary to the claim. -/
theorem late_lookup_reinserts_removed_sink_cex :
    findA (run ⟨⟨"", "", [(1, ⟨"A", "d", false, [65536]⟩)], []⟩, [], []⟩
        [Msg.event (some Facility.sink) (some Operation.changed) 1,
          Msg.event (some Facility.sink) (some Operation.removed) 1,
          Msg.sinkReply 1 [ListResult.item ⟨1, some "A", some "d", true, [65536]⟩,
            ListResult.listEnd]]).1.st.sinks 1 =
      some ⟨"A", "d", true, [65536]⟩ ∧
    findA (run ⟨⟨"", "", [(1, ⟨"A", "d", false, [65536]⟩)], []⟩, [], []⟩
        [Msg.event (some Facility.sink) (some Operation.changed) 1,
          Msg.event (some Facility.sink) (some Operation.removed) 1,
          Msg.sinkReply 1 [ListResult.item ⟨1, some "A", some "d", true, [65536]⟩,
            ListResult.listEnd]]).1.st.sinks 1 ≠ none := by
  exact ⟨rfl, by decide⟩

/-- C1 amended: the adapter discards a late lookup completion only insofar as
the completion delivers no entity for the removed index — which is what the
audio server sends for a device it has already removed (the by-index lookup
fails with an error).  For any client state, after a removed notification for
`(kind, i)` is applied and a late completion for the in-flight lookup of `i`
arrives whose result sequence carries no entity payload with index `i`, the
matching collection does not contain `i`; a completion that does carry an
entity payload for `i` would reinsert it (see the counterexample), the code
holding no tombstone of its own. -/
theorem removed_then_late_emptyhanded_completion_excludes_index (c : Client)
    (i : Nat) (results : List (ListResult SinkInfo))
    (hres : ∀ si, ListResult.item si ∈ results → si.index ≠ i)
    (results' : List (ListResult SourceInfo))
    (hres' : ∀ si, ListResult.item si ∈ results' → si.index ≠ i) :
    findA (run c [Msg.event (some Facility.sink) (some Operation.removed) i,
        Msg.sinkReply i results]).1.st.sinks i = none ∧
    findA (run c [Msg.event (some Facility.source) (some Operation.removed) i,
        Msg.sourceReply i results']).1.st.sources i = none := by
  constructor
  · show findA (run (step c _).1 _).1.st.sinks i = none
    simp only [step, on_event, run, requestsSinkIdx, requestsSourceIdx,
      List.filterMap_nil, List.append_nil]
    by_cases hmem : i ∈ c.pendingSink
    · simp only [if_pos hmem]
      rw [findA_applySinkResults_of_no_item _ _ _ hres]
      exact findA_eraseA_self _ _
    · simp only [if_neg hmem]
      exact findA_eraseA_self _ _
  · show findA (run (step c _).1 _).1.st.sources i = none
    simp only [step, on_event, run, requestsSinkIdx, requestsSourceIdx,
      List.filterMap_nil, List.append_nil]
    by_cases hmem : i ∈ c.pendingSource
    · simp only [if_pos hmem]
      rw [findA_applySourceResults_of_no_item _ _ _ hres']
      exact findA_eraseA_self _ _
    · simp only [if_neg hmem]
      exact findA_eraseA_self _ _

/-- C1 amended witness: sink 1 is removed while its lookup is in flight; the
late completion arrives empty-handed (an error, as the server reports for a
device it already removed) and index 1 is absent from the final snapshot. -/
theorem removed_then_late_emptyhanded_completion_excludes_index_witness :
    findA (run ⟨⟨"", "", [(1, ⟨"A", "d", false, [65536]⟩)], []⟩, [1], []⟩
        [Msg.event (some Facility.sink) (some Operation.removed) 1,
          Msg.sinkReply 1 [ListResult.err]]).1.st.sinks 1 = none ∧
    findA (run ⟨⟨"", "", [(1, ⟨"A", "d", false, [65536]⟩)], []⟩, [1], []⟩
        [Msg.event (some Facility.source) (some Operation.removed) 1,
          Msg.sourceReply 1 [ListResult.err]]).1.st.sources 1 = none :=
  removed_then_late_emptyhanded_completion_excludes_index
    ⟨⟨"", "", [(1, ⟨"A", "d", false, [65536]⟩)], []⟩, [1], []⟩ 1
    [ListResult.err] (by intro si hm; simp at hm)
    [ListResult.err] (by intro si hm; simp at hm)

/-- C3: every applied event notifies exactly once, with no value-level
deduplication.  A `Removed` emits exactly one notification of the matching
property even when the index is absent from the collection; a completed
`Changed` lookup (item followed by end-of-list) emits exactly one
notification, and when the delivered entity is field-for-field identical to
the stored one the mirror is left pointwise unchanged yet that one
notification is still emitted; each workspace delivery replaces the store,
returns `Continue(true)` and emits exactly one notification, so the
notification count equals the apply count 1:1 over any delivery sequence; and
dispatch performs one emission round per notification — the emission count is
independent of the observer count, each round reaching every observer. -/
theorem apply_always_notifies_once {β : Type} (s : PAState) (i : Nat)
    (si : SinkInfo) (store w : Workspaces) (ds : List Workspaces)
    (observers : List (PSpec → β)) (notifs : List PSpec) :
    (on_event s (some Facility.sink) (some Operation.removed) i).notifies =
      [PSpec.sinks] ∧
    (on_event s (some Facility.source) (some Operation.removed) i).notifies =
      [PSpec.sources] ∧
    sinkResultsNotifies s [ListResult.item si, ListResult.listEnd] = [PSpec.sinks] ∧
    (findA s.sinks si.index = some (SinkState.new si) →
      ∀ j, findA (applySinkResults s [ListResult.item si, ListResult.listEnd]).sinks j
        = findA s.sinks j) ∧
    i3_receiver store w = (w, true, 1) ∧
    (runI3Receiver store ds).2 = ds.length ∧
    (dispatchAll observers notifs).length = notifs.length ∧
    (∀ l ∈ dispatchAll observers notifs, l.length = observers.length) := by
  refine ⟨rfl, rfl, rfl, ?_, rfl, runI3Receiver_notify_count store ds, ?_, ?_⟩
  · intro h j
    show findA (insertA s.sinks si.index (SinkState.new si)) j = findA s.sinks j
    exact findA_insertA_of_self_value _ _ _ h j
  · simp [dispatchAll]
  · intro l hl
    simp only [dispatchAll, List.mem_map] at hl
    obtain ⟨p, _, rfl⟩ := hl
    simp [dispatch]

/-- C4: a full workspace listing replaces the store wholesale, and the
resulting snapshot is exactly the listing grouped by output string: an output
with no workspaces in the listing has no group, and the group of any other
output holds precisely that output's workspaces (as a permutation of the
listing's entries for it) in ascending `num` order. -/
theorem reset_replaces_store_with_grouped_sorted_listing (old : Workspaces)
    (l : List I3WS) (o : String) :
    (i3_receiver old (get_workspaces l)).1 = get_workspaces l ∧
    (wsOfOutput l o = [] → findG (get_workspaces l) o = none) ∧
    (∀ g, findG (get_workspaces l) o = some g →
      List.Perm g (wsOfOutput l o) ∧ List.Sorted wsLe g) := by
  have hb : findG (get_workspaces l) o =
      (combineG none (wsOfOutput l o)).map sortG := by
    rw [get_workspaces, findG_map_sortG, findG_buildGroups]
  refine ⟨rfl, ?_, ?_⟩
  · intro h
    rw [hb, h]
    rfl
  · intro g hg
    rw [hb] at hg
    cases hes : wsOfOutput l o with
    | nil =>
      rw [hes] at hg
      exact absurd hg (by simp [combineG])
    | cons e es =>
      rw [hes] at hg
      have heq : some (sortG (e :: es)) = some g := hg
      injection heq with heq
      subst heq
      constructor
      · exact List.perm_insertionSort wsLe (e :: es)
      · exact List.sorted_insertionSort wsLe (e :: es)

/-- C4 witness: the listing with outputs "out1" (nums 2 and 1) and "out2"
(num 7) yields for "out1" exactly its two workspaces in ascending order. -/
theorem reset_replaces_store_with_grouped_sorted_listing_witness :
    List.Perm
        [(⟨1, "a", true, true, false⟩ : WorkspaceState), ⟨2, "b", false, false, false⟩]
        (wsOfOutput
          [⟨2, "b", "out1", false, false, false⟩, ⟨1, "a", "out1", true, true, false⟩,
            ⟨7, "c", "out2", false, false, true⟩] "out1") ∧
      List.Sorted wsLe
        [(⟨1, "a", true, true, false⟩ : WorkspaceState), ⟨2, "b", false, false, false⟩] :=
  (reset_replaces_store_with_grouped_sorted_listing []
    [⟨2, "b", "out1", false, false, false⟩, ⟨1, "a", "out1", true, true, false⟩,
      ⟨7, "c", "out2", false, false, true⟩] "out1").2.2
    [⟨1, "a", true, true, false⟩, ⟨2, "b", false, false, false⟩] rfl

/-- C10: no observer ever sees an output group that is present but empty: a
group looked up in the payload built from any listing is non-empty, and the
store reachable by the receiver from the initial empty store through any
sequence of full-listing deliveries never maps an output to an empty
group. -/
theorem output_groups_never_empty (listings : List (List I3WS)) (o : String)
    (g : List WorkspaceState) :
    (∀ l, findG (get_workspaces l) o = some g → g ≠ []) ∧
    (findG (runI3Receiver [] (listings.map get_workspaces)).1 o = some g →
      g ≠ []) := by
  constructor
  · intro l hg
    exact get_workspaces_groups_nonempty l o g hg
  · exact runI3Receiver_preserves_nonempty []
      (by intro o' g' h; cases h) listings o g

/-- C10 witness: after one delivery, the group of "out2" is present and
non-empty. -/
theorem output_groups_never_empty_witness :
    findG (runI3Receiver []
        ([[⟨2, "b", "out1", false, false, false⟩, ⟨1, "a", "out1", true, true, false⟩,
          ⟨7, "c", "out2", false, false, true⟩]].map get_workspaces)).1 "out2" =
      some [⟨7, "c", false, false, true⟩] ∧
    ([(⟨7, "c", false, false, true⟩ : WorkspaceState)] ≠ []) :=
  ⟨rfl,
    (output_groups_never_empty
      [[⟨2, "b", "out1", false, false, false⟩, ⟨1, "a", "out1", true, true, false⟩,
        ⟨7, "c", "out2", false, false, true⟩]] "out2"
      [⟨7, "c", false, false, true⟩]).2 rfl⟩

/-- C3 witness: a `Changed` completion delivering an entity identical to the
stored sink leaves the mirror pointwise unchanged and still emits exactly one
notification. -/
theorem apply_always_notifies_once_witness :
    findA (applySinkResults ⟨"", "", [(2, ⟨"B", "e", false, [100]⟩)], []⟩
        [ListResult.item ⟨2, some "B", some "e", false, [100]⟩,
          ListResult.listEnd]).sinks 2 =
      findA (PAState.mk "" "" [(2, ⟨"B", "e", false, [100]⟩)] []).sinks 2 ∧
    sinkResultsNotifies ⟨"", "", [(2, ⟨"B", "e", false, [100]⟩)], []⟩
        [ListResult.item ⟨2, some "B", some "e", false, [100]⟩,
          ListResult.listEnd] = [PSpec.sinks] := by
  have h := apply_always_notifies_once (β := Unit)
    ⟨"", "", [(2, ⟨"B", "e", false, [100]⟩)], []⟩ 0
    ⟨2, some "B", some "e", false, [100]⟩ [] [] [] [] []
  exact ⟨h.2.2.2.1 rfl 2, h.2.2.1⟩

/-- C7: the default sink (and symmetrically the default source) is resolved
against the device collection by name equality, not by id: a device returned
by `default_sink` has name equal to the stored `defaultSink` string and
belongs to the sink collection; `default_sink` returns `none` exactly when no
device's name equals the stored string; and the result is unchanged under any
reassignment of indices that keeps the device values, so device ids play no
role in the resolution. -/
theorem default_device_resolution_by_name (s : PAState) :
    (∀ d, default_sink s = some d →
      d.name = s.defaultSink ∧ d ∈ s.sinks.map Prod.snd) ∧
    (default_sink s = none ↔ ∀ d ∈ s.sinks.map Prod.snd, d.name ≠ s.defaultSink) ∧
    (∀ d, default_source s = some d →
      d.name = s.defaultSource ∧ d ∈ s.sources.map Prod.snd) ∧
    (default_source s = none ↔
      ∀ d ∈ s.sources.map Prod.snd, d.name ≠ s.defaultSource) ∧
    (∀ m', s.sinks.map Prod.snd = m'.map Prod.snd →
      default_sink { s with sinks := m' } = default_sink s) ∧
    (∀ m', s.sources.map Prod.snd = m'.map Prod.snd →
      default_source { s with sources := m' } = default_source s) := by
  refine ⟨?_, ?_, ?_, ?_, ?_, ?_⟩
  · intro d h
    exact findByName_eq_some_imp _ _ _ _ h
  · exact findByName_none_iff _ _ _
  · intro d h
    exact findByName_eq_some_imp _ _ _ _ h
  · exact findByName_none_iff _ _ _
  · intro m' h
    exact (findByName_eq_of_map_snd_eq _ _ _ h _).symm
  · intro m' h
    exact (findByName_eq_of_map_snd_eq _ _ _ h _).symm

/-- C7 witness: in the concrete state with default name "A" and a sink named
"A" stored under index 5, the resolved device is that sink. -/
theorem default_device_resolution_by_name_witness :
    (⟨"A", "d", false, [65536]⟩ : SinkState).name =
        (PAState.mk "A" "" [(5, ⟨"A", "d", false, [65536]⟩)] []).defaultSink ∧
      (⟨"A", "d", false, [65536]⟩ : SinkState) ∈
        (PAState.mk "A" "" [(5, ⟨"A", "d", false, [65536]⟩)] []).sinks.map Prod.snd :=
  (default_device_resolution_by_name
    (PAState.mk "A" "" [(5, ⟨"A", "d", false, [65536]⟩)] [])).1
    ⟨"A", "d", false, [65536]⟩ rfl

/-- C9: a server-info update with no default sink name (resp. source name)
sets `defaultSink` (resp. `defaultSource`) to the empty string regardless of
the previous value; the initial state also carries the empty string; and when
the stored string is empty, `default_sink`/`default_source` return `none`
exactly as long as no device whose name equals the stored (empty) string
exists. -/
theorem server_info_missing_default_yields_empty (s : PAState) (si : ServerInfo) :
    (si.default_sink_name = none → (on_server_info s si).state.defaultSink = "") ∧
    (si.default_source_name = none →
      (on_server_info s si).state.defaultSource = "") ∧
    PAState.initial.defaultSink = "" ∧
    PAState.initial.defaultSource = "" ∧
    (s.defaultSink = "" →
      (default_sink s = none ↔ ∀ d ∈ s.sinks.map Prod.snd, d.name ≠ "")) ∧
    (s.defaultSource = "" →
      (default_source s = none ↔ ∀ d ∈ s.sources.map Prod.snd, d.name ≠ "")) := by
  refine ⟨?_, ?_, rfl, rfl, ?_, ?_⟩
  · intro h; simp [on_server_info, h]
  · intro h; simp [on_server_info, h]
  · intro h
    rw [default_sink, h]
    exact findByName_none_iff _ _ _
  · intro h
    rw [default_source, h]
    exact findByName_none_iff _ _ _

/-- C9 witness: applying a server-info update with both names absent to a
state whose previous defaults were "x" and "y" leaves the empty string. -/
theorem server_info_missing_default_yields_empty_witness :
    (on_server_info (PAState.mk "x" "y" [] []) (ServerInfo.mk none none)).state.defaultSink
      = "" :=
  (server_info_missing_default_yields_empty (PAState.mk "x" "y" [] [])
    (ServerInfo.mk none none)).1 rfl

/-- C5 counterexample: the ready-transition handler keeps no flag, so a
second state-change callback that still observes the Ready state subscribes
again and re-issues all three enumerations — the redundant ready callback is
not a no-op, refuting the claimed idempotence. -/
theorem ready_callback_reissues_startup_cex :
    runStateCallbacks [(true, PAContextState.ready), (true, PAContextState.ready)] =
      [StartupAction.subscribeClasses, StartupAction.getServerInfo,
        StartupAction.getSinkInfoList, StartupAction.getSourceInfoList,
        StartupAction.subscribeClasses, StartupAction.getServerInfo,
        StartupAction.getSinkInfoList, StartupAction.getSourceInfoList] ∧
    on_state_change true PAContextState.ready ≠ [] := by
  exact ⟨rfl, by decide⟩

theorem count_on_state_change (a : StartupAction) (p : Bool) (st : PAContextState) :
    (on_state_change p st).count a =
      if p = true ∧ st = PAContextState.ready then 1 else 0 := by
  cases a <;> cases p <;> cases st <;> decide

theorem runStateCallbacks_cons (c : Bool × PAContextState)
    (cs : List (Bool × PAContextState)) :
    runStateCallbacks (c :: cs) = on_state_change c.1 c.2 ++ runStateCallbacks cs := by
  simp [runStateCallbacks]

/-- C5 amended: the handler is a no-op whenever the context is not yet
stored or not in the Ready state, but it is not idempotent across redundant
Ready observations: over any sequence of state-change callbacks, each
startup action (the subscription and each of the three enumerations) is
issued exactly once per callback that observes a present context in the
Ready state — a redundant Ready callback re-subscribes and re-issues the
enumerations rather than being a no-op. -/
theorem startup_actions_per_ready_callback
    (calls : List (Bool × PAContextState)) (a : StartupAction) :
    (runStateCallbacks calls).count a = calls.count (true, PAContextState.ready) := by
  induction calls with
  | nil => rfl
  | cons c cs ih =>
    rw [runStateCallbacks_cons, List.count_append, ih, List.count_cons,
      count_on_state_change]
    by_cases h : c = (true, PAContextState.ready)
    · subst h
      simp [Nat.add_comm]
    · have hb : ¬(c.1 = true ∧ c.2 = PAContextState.ready) := by
        intro hc
        exact h (Prod.ext hc.1 hc.2)
      simp [hb, h]

/-- C2 counterexample: two workspace-change notifications pending after an
outstanding re-fetch trigger two further re-fetches, one per notification,
not the single coalesced re-fetch the claim requires. -/
theorem notification_burst_refetch_count_cex :
    (listenLoop [ListenItem.ok I3Event.workspaceEvent,
        ListenItem.ok I3Event.workspaceEvent]).count LoopAction.refetch = 2 ∧
    (listenLoop [ListenItem.ok I3Event.workspaceEvent,
        ListenItem.ok I3Event.workspaceEvent]).count LoopAction.refetch ≠ 1 := by
  exact ⟨rfl, by decide⟩

/-- C2 amended: the listener performs exactly one re-fetch per
workspace-change notification — N notifications read while a re-fetch was
outstanding trigger N further re-fetches, not one coalesced re-fetch.  (The
loop is sequential and blocking, so at most one re-fetch is ever in flight;
there is simply no coalescing of the backlog.) -/
theorem refetch_count_equals_notification_count (items : List ListenItem)
    (h : ∀ x ∈ items, x = ListenItem.ok I3Event.workspaceEvent) :
    listenLoop items = List.replicate items.length LoopAction.refetch := by
  induction items with
  | nil => rfl
  | cons x xs ih =>
    have hx := h x (by simp)
    subst hx
    rw [List.length_cons, List.replicate_succ]
    exact congrArg _ (ih fun y hy => h y (by simp [hy]))

/-- C2 amended witness: a burst of three notifications yields three
re-fetches. -/
theorem refetch_count_equals_notification_count_witness :
    listenLoop [ListenItem.ok I3Event.workspaceEvent,
        ListenItem.ok I3Event.workspaceEvent, ListenItem.ok I3Event.workspaceEvent] =
      List.replicate
        [ListenItem.ok I3Event.workspaceEvent, ListenItem.ok I3Event.workspaceEvent,
          ListenItem.ok I3Event.workspaceEvent].length LoopAction.refetch :=
  refetch_count_equals_notification_count _ (by decide)

/-- C8: connection-setup failures and listening-loop read/parse failures are
fatal with a diagnostic and without retry: the listener loop processes the
notifications read before a failed read/parse (one re-fetch each), then
aborts with the parse diagnostic and processes nothing that follows — in
particular it never re-fetches for, or reconnects after, anything beyond the
failure; a failure connecting either i3 connection or subscribing aborts the
thread immediately; and the audio adapter's construction yields an error
diagnostic exactly when the mainloop creation, context creation, or connect
fails. -/
theorem setup_and_listen_failures_are_fatal
    (pre : List ListenItem) (m : String) (rest : List ListenItem)
    (hok : ∀ x ∈ pre, x = ListenItem.ok I3Event.workspaceEvent)
    (b1 b2 : Bool) (items : List ListenItem) (ml ctx cn : Bool) :
    listenLoop (pre ++ ListenItem.readErr m :: rest) =
      List.replicate pre.length LoopAction.refetch ++
        [LoopAction.abort "Failed to parse an i3 event"] ∧
    listenerThread false b1 b2 items = [LoopAction.abort "Failed to connect i3"] ∧
    listenerThread true false b2 items =
      [LoopAction.refetch, LoopAction.abort "Failed to connect i3"] ∧
    listenerThread true true false items =
      [LoopAction.refetch, LoopAction.abort "Failed to subscribe to i3"] ∧
    ((∃ d, pa_constructed ml ctx cn = Except.error d) ↔
      ¬(ml = true ∧ ctx = true ∧ cn = true)) := by
  refine ⟨?_, rfl, rfl, rfl, ?_⟩
  · induction pre with
    | nil => rfl
    | cons x xs ih =>
      have hx := hok x (by simp)
      subst hx
      rw [List.cons_append, List.length_cons, List.replicate_succ, List.cons_append]
      exact congrArg _ (ih fun y hy => hok y (by simp [hy]))
  · cases ml <;> cases ctx <;> cases cn <;> simp [pa_constructed]

/-- C8 witness: one notification, then a read failure, then a further
notification that is never processed; and a failed connect in the audio
adapter's construction yields an error diagnostic. -/
theorem setup_and_listen_failures_are_fatal_witness :
    listenLoop ([ListenItem.ok I3Event.workspaceEvent] ++
        ListenItem.readErr "boom" :: [ListenItem.ok I3Event.workspaceEvent]) =
      List.replicate [ListenItem.ok I3Event.workspaceEvent].length LoopAction.refetch ++
        [LoopAction.abort "Failed to parse an i3 event"] ∧
    (∃ d, pa_constructed true true false = Except.error d) := by
  have h := setup_and_listen_failures_are_fatal [ListenItem.ok I3Event.workspaceEvent]
    "boom" [ListenItem.ok I3Event.workspaceEvent] (by decide) true true [] true true false
  exact ⟨h.1, h.2.2.2.2.mpr (by simp)⟩

/-- C6: volume round-trip.  For any integer percentage p in 0–100 and any
device channel vector, the vector produced by the setVolume path
(`percentage_to_volume`, scaling every channel proportionally to its share of
the maximum and converting percentage to native units by adding 0.5 before
truncating) has a maximum amplitude whose display percentage (multiply by
100, divide by the native normal value 0x10000, add 0.5, truncate — the
convention of `SinkState::adjustment`) is exactly p, including values landing
on a .5 boundary before rounding. -/
theorem volume_roundtrip (p : ℕ) (cv : List Nat) (_hp : p ≤ 100) (hcv : cv ≠ []) :
    displayPercentage (maxAmp (percentage_to_volume (p : ℚ) cv)) = (p : ℤ) := by
  by_cases hmx : maxAmp cv = 0
  · rw [percentage_to_volume, if_pos hmx, maxAmp_map_const cv hcv]
    exact display_pctToNative p
  · rw [percentage_to_volume, if_neg hmx]
    rw [maxAmp_map_mono _ (fun a b hab => chanScale_mono p (maxAmp cv) hmx a b hab)
      cv hcv]
    rw [chanScale_at_max p (maxAmp cv) hmx]
    exact display_pctToNative p

/-- C6 witness: setting 37% (the spec's example) and 50% (whose display
computation lands exactly on a .5 boundary before truncation) on a two-channel
device at half/full amplitude reads back as exactly 37 and 50. -/
theorem volume_roundtrip_witness :
    displayPercentage (maxAmp (percentage_to_volume ((37 : ℕ) : ℚ) [32768, 65536])) =
      ((37 : ℕ) : ℤ) ∧
    displayPercentage (maxAmp (percentage_to_volume ((50 : ℕ) : ℚ) [32768, 65536])) =
      ((50 : ℕ) : ℤ) :=
  ⟨volume_roundtrip 37 [32768, 65536] (by decide) (by decide),
    volume_roundtrip 50 [32768, 65536] (by decide) (by decide)⟩

end Jiji
